import Mathlib

/-!
Verification of the axial-coding classification pipeline
(`scripts/axial_coding/classify.py`, `scripts/axial_coding/prompt.py`).

The pipeline is embedded shallowly:

* JSON values are modelled by the inductive `Json` (object fields keep
  insertion order, as Python dicts do).
* A line of the NDJSON output file is modelled by its parse outcome
  (`Line`): blank, malformed (raises `json.JSONDecodeError`), or parsed
  to a `Json` value.
* Python runtime errors that the source can raise and catch are modelled
  with `Except PyErr`; an `except Exception` handler corresponds to a
  `match` on the `Except` value, and the narrower
  `except json.JSONDecodeError` handler only intercepts
  `PyErr.jsonDecodeError`.
* The Vertex AI call is abstracted as an oracle giving, per item, either
  an exception or a response whose text parses (or fails to parse) to a
  `Json` value; `json.loads` applied to strings taken from the input data
  is abstracted as a `parseJson : String → Option Json` parameter.
* The thread pool of `run` is modelled sequentially, in submission order
  (the semantics of a single worker): each completed future's result is
  saved and its id recorded before the next item runs.

Machine strings are Lean `String`s; `str.strip()`/`str.replace` are
implemented over the character list so that concrete runs reduce in the
kernel.
-/

mutual
inductive Json where
  | null
  | bool (b : Bool)
  | num (n : Int)
  | str (s : String)
  | arr (xs : JsonList)
  | obj (kvs : JsonObj)
deriving DecidableEq, Repr

inductive JsonList where
  | nil
  | cons (hd : Json) (tl : JsonList)
deriving DecidableEq, Repr

inductive JsonObj where
  | nil
  | cons (k : String) (v : Json) (tl : JsonObj)
deriving DecidableEq, Repr
end

/-- Elements of a JSON array, as a Lean list. -/
def JsonList.toList : JsonList → List Json
  | .nil => []
  | .cons x tl => x :: tl.toList

/-- Keys of a JSON object, in insertion order (Python `for k in dict`). -/
def JsonObj.keys : JsonObj → List String
  | .nil => []
  | .cons k _ tl => k :: tl.keys

/-- First binding of key `k`, i.e. Python `dict[k]` / `dict.get(k)` on a
decoded JSON object. -/
def objGet : JsonObj → String → Option Json
  | .nil, _ => none
  | .cons k v tl, k' => if k = k' then some v else objGet tl k'

/-- A feedback item / result record: a decoded JSON object. -/
abbrev Item := JsonObj

/-- Python runtime errors relevant to the embedded code. -/
inductive PyErr where
  | attributeError
  | typeError
  | keyError
  | indexError
  | jsonDecodeError
  | apiError
  | saveError
deriving DecidableEq, Repr

/-- Python truthiness of a decoded JSON value. -/
def pyTruthy : Json → Bool
  | .null => false
  | .bool b => b
  | .num n => n ≠ 0
  | .str s => s ≠ ""
  | .arr xs => xs ≠ .nil
  | .obj kvs => kvs ≠ .nil

/-- Python `value.get(key, dflt)`: succeeds only on dicts, raising
`AttributeError` otherwise. -/
def pyGet (j : Json) (k : String) (dflt : Json) : Except PyErr Json :=
  match j with
  | .obj kvs => .ok ((objGet kvs k).getD dflt)
  | _ => .error .attributeError

/-- Python iteration `for x in value`: lists yield elements, strings yield
one-character strings, dicts yield their keys, everything else raises
`TypeError`. -/
def pyIter : Json → Except PyErr (List Json)
  | .arr xs => .ok xs.toList
  | .str s => .ok (s.data.map fun c => .str (String.mk [c]))
  | .obj kvs => .ok (kvs.keys.map .str)
  | _ => .error .typeError

/-- Python `len(value)`. -/
def pyLen : Json → Except PyErr Nat
  | .arr xs => .ok xs.toList.length
  | .str s => .ok s.length
  | .obj kvs => .ok kvs.keys.length
  | _ => .error .typeError

/-- Python `value[0]`. -/
def pyIndex0 : Json → Except PyErr Json
  | .arr (.cons x _) => .ok x
  | .arr .nil => .error .indexError
  | .str s => if s = "" then .error .indexError else .ok (.str ⟨s.data.take 1⟩)
  | .obj _ => .error .keyError
  | _ => .error .typeError

/-- Characters removed by Python `str.strip()` (ASCII whitespace). -/
def pyIsSpace (c : Char) : Bool :=
  c = ' ' || c = '\t' || c = '\n' || c = '\r' || c = '\x0b' || c = '\x0c'

/-- Python `str.strip()`. -/
def pyStrip (s : String) : String :=
  ⟨((s.data.dropWhile pyIsSpace).reverse.dropWhile pyIsSpace).reverse⟩

/-- Replace every occurrence of the nonempty pattern `p :: ps`, left to
right, non-overlapping (Python `str.replace`).  The fuel argument makes
the recursion structural (so that concrete runs reduce in the kernel);
each step consumes at least one character, so any fuel of at least the
input length gives the fuel-free semantics. -/
def pyReplaceCore (p : Char) (ps repl : List Char) : Nat → List Char → List Char
  | _, [] => []
  | 0, cs => cs
  | fuel + 1, c :: rest =>
    if (p :: ps).isPrefixOf (c :: rest) then
      repl ++ pyReplaceCore p ps repl fuel (rest.drop ps.length)
    else
      c :: pyReplaceCore p ps repl fuel rest

/-- Python `s.replace(pat, repl)`. -/
def pyReplace (s pat repl : String) : String :=
  match pat.data with
  | [] => s
  | p :: ps => ⟨pyReplaceCore p ps repl.data s.data.length s.data⟩

/-- The string contents of a list of JSON values, when every member is a
string. -/
def allStrings : List Json → Option (List String)
  | [] => some []
  | .str s :: rest => (allStrings rest).map (s :: ·)
  | _ :: _ => none

/-- Python `", ".join(value)`: joins the iterates of `value`, raising
`TypeError` when `value` is not iterable or yields a non-string. -/
def pyJoin (sep : String) (j : Json) : Except PyErr String :=
  match j with
  | .str s => .ok (String.intercalate sep (s.data.map fun c => String.mk [c]))
  | .obj kvs => .ok (String.intercalate sep kvs.keys)
  | .arr xs =>
    match allStrings xs.toList with
    | some ss => .ok (String.intercalate sep ss)
    | none => .error .typeError
  | _ => .error .typeError

/-- A line of the NDJSON output file, represented by its parse outcome:
skipped-as-blank, rejected by `json.loads` (`JSONDecodeError`), or parsed
to a JSON value. -/
inductive Line where
  | blank
  | malformed
  | parsed (j : Json)
deriving DecidableEq, Repr

/-- Whether a decoded JSON value is hashable in Python: JSON lists and
dicts are unhashable, so `set.add` and `in`-membership raise `TypeError`
on them; `None`, booleans, numbers and strings are hashable. -/
def jsonHashable : Json → Bool
  | .arr _ => false
  | .obj _ => false
  | _ => true

/-- Loop body of `_load_processed_ids` (classify.py lines 74-87): for each
non-blank line, parse it and `processed.add(data.get("alert_id"))`;
malformed lines are skipped by the inner `except json.JSONDecodeError`;
any other error aborts the loop and is swallowed by the outer
`except Exception`, which returns the set accumulated so far.  Two such
errors exist: `data.get` on a non-dict value raises `AttributeError`, and
`processed.add` of an unhashable (list- or dict-valued) `alert_id` raises
`TypeError`.  The second component records whether the loop was aborted. -/
def loadLoop : List Line → List Json → List Json × Option PyErr
  | [], acc => (acc, none)
  | .blank :: rest, acc => loadLoop rest acc
  | .malformed :: rest, acc => loadLoop rest acc
  | .parsed (.obj kvs) :: rest, acc =>
    if jsonHashable ((objGet kvs "alert_id").getD .null) then
      loadLoop rest (acc.insert ((objGet kvs "alert_id").getD .null))
    else (acc, some .typeError)
  | .parsed _ :: _rest, acc => (acc, some .attributeError)

/-- `_load_processed_ids` (classify.py lines 69-87): the set of already
processed `alert_id` values recovered from the output file; a missing
output file corresponds to an empty line list.  Never raises: every error
is caught and the partial set returned. -/
def loadProcessedIds (lines : List Line) : List Json :=
  (loadLoop lines []).1

/-- `VALID_THEMES` (prompt.py lines 193-200): the closed label set. -/
def VALID_THEMES : List String :=
  ["AUTHORIZED_USER_ACTIVITY",
   "AI_VERDICT_INCONSISTENCY",
   "LEGITIMATE_SOFTWARE",
   "ORGANIZATIONAL_POLICY",
   "INSUFFICIENT_EVIDENCE",
   "OTHER"]

/-- Outcome of one `client.models.generate_content` call: either an
exception raised during the call, or a response whose `.text` either
fails to parse (`none`, i.e. `json.JSONDecodeError` from `json.loads`)
or parses to a JSON value. -/
inductive ModelOutcome where
  | raises
  | responds (parsed : Option Json)
deriving DecidableEq, Repr

/-- The four prior-assessment fields extracted from trace data
(classify.py lines 136-139 hold their `"N/A"` defaults). -/
structure GenFields where
  ai_verdict : Json
  ai_justification : Json
  event_summary : Json
  investigative_gaps : Json
deriving DecidableEq, Repr

/-- Initial values of the four extracted fields (classify.py 136-139). -/
def defaultsGen : GenFields :=
  ⟨.str "N/A", .str "N/A", .str "N/A", .str "N/A"⟩

/-- Code-fence stripping applied to a generation payload
(classify.py line 150):
`content.replace('```json\n', '').replace('```', '').strip()`. -/
def stripFences (content : String) : String :=
  pyStrip (pyReplace (pyReplace content "```json\n" "") "```" "")

/-- The `properties` unwrap of classify.py lines 152-153. -/
def unwrapProperties (gen_data0 : Json) : Json :=
  match gen_data0 with
  | .obj kvs =>
    match objGet kvs "properties" with
    | some p => p
    | none => gen_data0
  | _ => gen_data0

/-- Field extraction after the `properties` unwrap (classify.py lines
155-159): four `.get` calls (each raising `AttributeError` when
`gen_data` is not a dict) and the joining of the gaps list. -/
def pullGenFields (gen_data : Json) : Except PyErr GenFields :=
  match pyGet gen_data "final_decision" (.str "N/A") with
  | .error e => .error e
  | .ok ai_verdict =>
    match pyGet gen_data "justification" (.str "N/A") with
    | .error e => .error e
    | .ok ai_justification =>
      match pyGet gen_data "event_summary" (.str "N/A") with
      | .error e => .error e
      | .ok event_summary =>
        match pyGet gen_data "investigative_gaps" (.arr .nil) with
        | .error e => .error e
        | .ok gaps =>
          if pyTruthy gaps then
            match pyJoin ", " gaps with
            | .error e => .error e
            | .ok s => .ok ⟨ai_verdict, ai_justification, event_summary, .str s⟩
          else .ok ⟨ai_verdict, ai_justification, event_summary, .str "N/A"⟩

/-- Body of the `try` at classify.py lines 148-159, given the textual
payload `content` (already known to be the value of
`obs["output"].get("content", "")`): strip fences, `json.loads`, unwrap a
`properties` wrapper, pull the four fields.  Errors propagate; the caller
intercepts only `jsonDecodeError`. -/
def genTryInner (parseJson : String → Option Json) (content : Json) :
    Except PyErr GenFields :=
  match content with
  | .str s =>
    match parseJson (stripFences s) with
    | none => .error .jsonDecodeError
    | some gen_data0 => pullGenFields (unwrapProperties gen_data0)
  | _ => .error .attributeError

/-- The `try`/`except json.JSONDecodeError: pass` at classify.py lines
148-161: a JSON-decode failure leaves the four defaults in place; every
other error propagates to `classify_item`'s outer handler. -/
def genTry (parseJson : String → Option Json) (content : Json) :
    Except PyErr GenFields :=
  match genTryInner parseJson content with
  | .ok f => .ok f
  | .error .jsonDecodeError => .ok defaultsGen
  | .error e => .error e

/-- One iteration of the observation loop (classify.py lines 143-162):
`some fields` when this observation matches (the loop then breaks),
`none` when it does not.  On a match, `content` is
`obs["output"].get("content", "")` (line 147, outside the `try`). -/
def scanObsStep (parseJson : String → Option Json) (obs : Json) :
    Except PyErr (Option GenFields) :=
  match pyGet obs "type" .null with
  | .error e => .error e
  | .ok t =>
    match pyGet obs "name" .null with
    | .error e => .error e
    | .ok n =>
      match pyGet obs "output" .null with
      | .error e => .error e
      | .ok out =>
        if (t = Json.str "GENERATION" ∨ n = Json.str "llm:generate") ∧ pyTruthy out then
          match pyGet out "content" (.str "") with
          | .error e => .error e
          | .ok content =>
            match genTry parseJson content with
            | .error e => .error e
            | .ok fields => .ok (some fields)
        else .ok none

/-- The observation loop of classify.py lines 143-162: first matching
observation wins; with no match the defaults stand. -/
def scanObs (parseJson : String → Option Json) : List Json → Except PyErr GenFields
  | [] => .ok defaultsGen
  | obs :: rest =>
    match scanObsStep parseJson obs with
    | .error e => .error e
    | .ok (some f) => .ok f
    | .ok none => scanObs parseJson rest

/-- Extraction of the prior automated assessment from the record's trace
data (classify.py lines 135-162), given `traces = item.get("traces", [])`. -/
def extractGeneration (parseJson : String → Option Json) (traces : Json) :
    Except PyErr GenFields :=
  if pyTruthy traces then
    match pyLen traces with
    | .error e => .error e
    | .ok n =>
      if n > 0 then
        match pyIndex0 traces with
        | .error e => .error e
        | .ok t0 =>
          match pyGet t0 "observations" (.arr .nil) with
          | .error e => .error e
          | .ok obsJ =>
            match pyIter obsJ with
            | .error e => .error e
            | .ok obsList => scanObs parseJson obsList
      else .ok defaultsGen
  else .ok defaultsGen

/-- One persisted classification result (classify.py lines 213-221). -/
structure ClassificationResult where
  alert_id : Json
  theme : String
  confidence : Json
  reasoning : Json
  missing_context : Json
  trend_insight : Json
  processed_at : String
deriving DecidableEq, Repr

/-- Response handling of classify.py lines 199-224: parse failure of the
response text returns `None` (the item is skipped); then the theme is
validated against `VALID_THEMES` and coerced to `"OTHER"`, and the result
dict is built.  `result_data.get` on a non-dict response raises
(`AttributeError`), to be caught by the outer handler. -/
def buildResult (alert_id : Json) (now : String) (parsed : Option Json) :
    Except PyErr (Option ClassificationResult) := do
  match parsed with
  | none => pure none
  | some result_data => do
    let themeJ ← pyGet result_data "theme" (.str "OTHER")
    let theme :=
      match themeJ with
      | .str s => if s ∈ VALID_THEMES then s else "OTHER"
      | _ => "OTHER"
    let confidence ← pyGet result_data "confidence" (.str "UNKNOWN")
    let reasoning ← pyGet result_data "reasoning" (.str "")
    let missing_context ← pyGet result_data "missing_context" (.str "")
    let trend_insight ← pyGet result_data "trend_insight" (.str "")
    pure (some
      { alert_id := alert_id
        theme := theme
        confidence := confidence
        reasoning := reasoning
        missing_context := missing_context
        trend_insight := trend_insight
        processed_at := now })

/-- The comment fallback of classify.py lines 122-128: scan the feedback
scores for the first entry whose `comment` (or, when that is falsy,
`value`) field is a string of trimmed length > 10; otherwise keep the
original comment. -/
def classifyFallback : List Json → Json → Except PyErr Json
  | [], orig => .ok orig
  | score :: rest, orig =>
    match pyGet score "comment" .null with
    | .error e => .error e
    | .ok c =>
      match pyGet score "value" .null with
      | .error e => .error e
      | .ok v =>
        match (if pyTruthy c then c else v) with
        | .str s =>
          if (pyStrip s).length > 10 then .ok (Json.str s) else classifyFallback rest orig
        | _ => classifyFallback rest orig

/-- The comment-selection stage of `classify_item` (classify.py lines
118-132): primary `metadata.get("human_comment", "")`, the
comment-or-value fallback when the primary is falsy, then the
`if not human_comment or len(human_comment.strip()) < 10: return None`
check (`.ok none` models that early return; `len(...)` distinguishes
itself from `run`'s filter by accepting trimmed length exactly 10, and
raises `AttributeError` on a truthy non-string comment). -/
def commentStage (item : Item) : Except PyErr (Option String) :=
  match pyGet ((objGet item "metadata").getD (.obj .nil)) "human_comment" (.str "") with
  | .error e => .error e
  | .ok human_comment0 =>
    match (if ¬ pyTruthy human_comment0 then
        match pyIter ((objGet item "feedback_scores").getD (.arr .nil)) with
        | Except.error e => Except.error e
        | Except.ok scores => classifyFallback scores human_comment0
      else Except.ok human_comment0) with
    | .error e => .error e
    | .ok human_comment =>
      if ¬ pyTruthy human_comment then .ok none
      else
        match human_comment with
        | .str s => if (pyStrip s).length < 10 then .ok none else .ok (some s)
        | _ => .error .attributeError

/-- Body of the `try` at classify.py lines 116-224: everything
`classify_item` does after the already-processed check.  The prompt
construction (lines 165-175) is pure string formatting over fields of a
dict already known here to be a dict, cannot raise, and only feeds the
abstracted model call, so it is not modelled; the call itself is the
`outcome` argument.  Returns `.ok none` for the early `return None`
paths, and `.error` for exceptions reaching the outer handler. -/
def classifyBody (parseJson : String → Option Json) (outcome : ModelOutcome)
    (now : String) (item : Item) (alert_id : Json) :
    Except PyErr (Option ClassificationResult) :=
  match commentStage item with
  | .error e => .error e
  | .ok none => .ok none
  | .ok (some _hc) =>
    match extractGeneration parseJson ((objGet item "traces").getD (.arr .nil)) with
    | .error e => .error e
    | .ok _gen =>
      match outcome with
      | .raises => .error .apiError
      | .responds p => buildResult alert_id now p

/-- The `alert_id` an item carries into the processed-set checks:
`item.get("alert_id")`, which is Python `None` when the key is absent
(classify.py lines 109 and 270). -/
def itemAlertId (item : Item) : Json :=
  (objGet item "alert_id").getD .null

/-- `classify_item` (classify.py lines 99-228): skip already-processed
ids (lines 109-114, before the `try`); any exception inside the `try` is
caught by the `except Exception` at line 226 and turns into `None`.
The membership test is modelled as never raising; in Python it raises
`TypeError` for a list- or dict-valued `alert_id` (line 112, outside the
`try`), which is unreachable for batches `run` submits, since `run`'s
own membership test at line 270 raises first for such ids. -/
def classify_item (parseJson : String → Option Json) (processed : List Json)
    (outcome : ModelOutcome) (now : String) (item : Item) :
    Option ClassificationResult :=
  if itemAlertId item ∈ processed then none
  else
    match classifyBody parseJson outcome now item (itemAlertId item) with
    | .ok r => r
    | .error _ => none

/-- `json.dumps(result)` composed with the reading side: the JSON object
a saved result line parses back to (classify.py line 93 writes the dict
of lines 213-221 in insertion order). -/
def resultJson (r : ClassificationResult) : Json :=
  .obj (.cons "alert_id" r.alert_id
    (.cons "theme" (.str r.theme)
      (.cons "confidence" r.confidence
        (.cons "reasoning" r.reasoning
          (.cons "missing_context" r.missing_context
            (.cons "trend_insight" r.trend_insight
              (.cons "processed_at" (.str r.processed_at) .nil)))))))

/-- Mutable state of a `ThemeClassifier` during `run`: the output file
(one `Line` per physical line), the in-memory `processed_ids` set, and
the number of `_save_result` attempts made so far (used to index the
save-failure oracle). -/
structure RunState where
  fileLines : List Line
  processed : List Json
  saves : Nat
deriving DecidableEq, Repr

/-- Eligibility fallback in `run` (classify.py lines 249-254): unlike the
fallback inside `classify_item`, only the `comment` field of a score is
consulted, never `value`. -/
def runFallbackGo : List Json → Json → Except PyErr Json
  | [], orig => .ok orig
  | score :: rest, orig =>
    match pyGet score "comment" .null with
    | .error e => .error e
    | .ok (.str s) =>
      if (pyStrip s).length > 10 then .ok (Json.str s) else runFallbackGo rest orig
    | .ok _ => runFallbackGo rest orig

/-- The per-item eligibility check of `run`'s filter loop (classify.py
lines 244-258): primary `metadata.human_comment`, comment-field fallback
over the feedback scores when the primary is falsy, then
`isinstance(comment, str) and len(comment.strip()) > 10`. -/
def eligibleItem (item : Item) : Except PyErr Bool :=
  match pyGet ((objGet item "metadata").getD (.obj .nil)) "human_comment" .null with
  | .error e => .error e
  | .ok comment0 =>
    match (if ¬ pyTruthy comment0 then
        match pyIter ((objGet item "feedback_scores").getD (.arr .nil)) with
        | Except.error e => Except.error e
        | Except.ok scores => runFallbackGo scores comment0
      else Except.ok comment0) with
    | .error e => .error e
    | .ok (.str s) => .ok (decide ((pyStrip s).length > 10))
    | .ok _ => .ok false

/-- The filter loop of classify.py lines 242-258: the ordered sublist of
items with a valid comment.  An exception while checking one item
propagates out of `run` (there is no handler around the loop). -/
def itemsWithComments : List Item → Except PyErr (List Item)
  | [] => .ok []
  | item :: rest =>
    match eligibleItem item with
    | .error e => .error e
    | .ok b =>
      match itemsWithComments rest with
      | .error e => .error e
      | .ok tail => .ok (if b then item :: tail else tail)

/-- The `--limit` cap (classify.py lines 263-265): `if limit:` is false
for `None` and for `0`, so only a nonzero limit truncates; a negative
`limit` follows Python slice semantics `items[:limit]`. -/
def applyLimit (limit : Option Int) (items : List Item) : List Item :=
  match limit with
  | none => items
  | some n =>
    if n = 0 then items
    else if 0 < n then items.take n.toNat
    else items.take (items.length - (-n).toNat)

/-- The list `to_process` handed to the worker pool (classify.py lines
242-271): eligible items, capped, minus already-processed ids.  The
`not in` test is modelled as never raising; in Python it raises
`TypeError` for a list- or dict-valued `alert_id` (line 270), aborting
`run` before anything is submitted — records with hashable ids, the case
the resume claim is stated for, never hit that path. -/
def toProcess (feedback : List Item) (limit : Option Int) (st : RunState) :
    Except PyErr (List Item) :=
  match itemsWithComments feedback with
  | .error e => .error e
  | .ok items =>
    .ok ((applyLimit limit items).filter fun it => itemAlertId it ∉ st.processed)

/-- The completion-draining loop of `run` (classify.py lines 279-299),
sequentialised in submission order: for each item, run `classify_item`
against the current `processed_ids`; on a result, `_save_result` appends
one parsed line (classify.py lines 89-97; a failed write appends nothing,
is logged, and the re-raised exception propagates out of `run`, since the
loop has no handler), then the id is added to `processed_ids` and the
success count bumped.  The `processed_ids.add` at line 294 is modelled as
never raising; in Python it raises `TypeError` for a list- or dict-valued
`alert_id`, unreachable because `run`'s membership test at line 270
raises first for such ids. -/
def runLoop (parseJson : String → Option Json) (oracle : Item → ModelOutcome)
    (saveOk : Nat → Bool) (now : String) :
    List Item → RunState → Nat → RunState × Except PyErr Nat
  | [], st, cnt => (st, .ok cnt)
  | item :: rest, st, cnt =>
    match classify_item parseJson st.processed (oracle item) now item with
    | none => runLoop parseJson oracle saveOk now rest st cnt
    | some r =>
      if saveOk st.saves then
        runLoop parseJson oracle saveOk now rest
          { fileLines := st.fileLines ++ [Line.parsed (resultJson r)]
            processed := st.processed.insert r.alert_id
            saves := st.saves + 1 }
          (cnt + 1)
      else
        ({ st with saves := st.saves + 1 }, .error .saveError)

/-- `run` (classify.py lines 230-302): filter, cap, drop processed ids,
then drain the pool.  Returns the final classifier state together with
either the success count or the exception that escaped `run`. -/
def run (parseJson : String → Option Json) (oracle : Item → ModelOutcome)
    (saveOk : Nat → Bool) (now : String) (feedback : List Item)
    (limit : Option Int) (st : RunState) : RunState × Except PyErr Nat :=
  match toProcess feedback limit st with
  | .error e => (st, .error e)
  | .ok items => runLoop parseJson oracle saveOk now items st 0

/-- The compact per-result triple sent to the trend model
(classify.py lines 309-315). -/
def compactEntry (r : Item) : Json :=
  let tenant := (objGet r "tenant").getD .null
  .obj (.cons "theme" ((objGet r "theme").getD .null)
    (.cons "insight" ((objGet r "trend_insight").getD .null)
      (.cons "tenant" (if pyTruthy tenant then tenant else .str "Unknown") .nil)))

/-- `compact_data` (classify.py lines 309-315). -/
def compactData (results : List Item) : List Json :=
  results.map compactEntry

/-- The fallback value of `generate_global_trends`
(classify.py line 362). -/
def fallbackTrends : Json :=
  .obj (.cons "trends" (.arr .nil)
    (.cons "summary" (.str "Error generating trends.") .nil))

/-- `generate_global_trends` (classify.py lines 304-362).  The model call
is abstracted as an oracle over the compact data; `writeOk` abstracts
whether writing `global_trends.json` succeeds.  Returns the function's
return value together with the JSON successfully written to the trend
file (`none` when nothing was durably written).  Every failure lands in
the `except Exception` at line 360 and yields the fallback. -/
def generate_global_trends (oracle : List Json → ModelOutcome) (writeOk : Bool)
    (results : List Item) : Json × Option Json :=
  match oracle (compactData results) with
  | .raises => (fallbackTrends, none)
  | .responds none => (fallbackTrends, none)
  | .responds (some trends_result) =>
    if writeOk then (trends_result, some trends_result)
    else (fallbackTrends, none)

/-- Build a JSON array from a Lean list (inverse of `JsonList.toList`). -/
def JsonList.ofList : List Json → JsonList
  | [] => .nil
  | x :: xs => .cons x (JsonList.ofList xs)

/-- Build a JSON object from an association list. -/
def JsonObj.ofList : List (String × Json) → JsonObj
  | [] => .nil
  | (k, v) :: kvs => .cons k v (JsonObj.ofList kvs)

-- Equality on `Except` results is decidable (used to evaluate concrete
-- runs inside closed statements).
deriving instance DecidableEq for Except

/-- Whether a JSON value is an object (a Python dict after decoding). -/
def Json.isObj : Json → Bool
  | .obj _ => true
  | _ => false

/-- Inversion for a successful `Except` bind. -/
theorem exceptBind_ok {α β : Type} {x : Except PyErr α} {f : α → Except PyErr β}
    {v : β} (h : x >>= f = .ok v) : ∃ a, x = .ok a ∧ f a = .ok v := by
  cases x with
  | error e => simp [bind, Except.bind] at h
  | ok a => exact ⟨a, rfl, by simpa [bind, Except.bind] using h⟩

/-- Removing the malformed lines does not change what
`_load_processed_ids` accumulates nor whether it aborts. -/
theorem loadLoop_filter_malformed :
    ∀ (lines : List Line) (acc : List Json),
      loadLoop (lines.filter fun l => l ≠ Line.malformed) acc = loadLoop lines acc := by
  intro lines
  induction lines with
  | nil => intro acc; rfl
  | cons hd tl ih =>
    intro acc
    cases hd with
    | blank => simpa [List.filter, loadLoop] using ih acc
    | malformed => simpa [List.filter, loadLoop] using ih acc
    | parsed j =>
      cases j with
      | obj kvs =>
        cases hh : jsonHashable ((objGet kvs "alert_id").getD .null) with
        | true => simpa [List.filter, loadLoop, hh] using ih _
        | false => simp [List.filter, loadLoop, hh]
      | null => simp [List.filter, loadLoop]
      | bool b => simp [List.filter, loadLoop]
      | num n => simp [List.filter, loadLoop]
      | str s => simp [List.filter, loadLoop]
      | arr xs => simp [List.filter, loadLoop]

/-- Splitting `_load_processed_ids` at an append, when the first part
completes without an internal error. -/
theorem loadLoop_append_ok :
    ∀ (a b : List Line) (acc : List Json), (loadLoop a acc).2 = none →
      loadLoop (a ++ b) acc = loadLoop b (loadLoop a acc).1 := by
  intro a
  induction a with
  | nil => intro b acc _; rfl
  | cons hd tl ih =>
    intro b acc h
    cases hd with
    | blank => exact ih b acc h
    | malformed => exact ih b acc h
    | parsed j =>
      cases j with
      | obj kvs =>
        cases hh : jsonHashable ((objGet kvs "alert_id").getD .null) with
        | true =>
          simp only [List.cons_append, loadLoop, hh, if_true] at h ⊢
          exact ih b _ h
        | false => simp [loadLoop, hh] at h
      | null => simp [loadLoop] at h
      | bool b' => simp [loadLoop] at h
      | num n => simp [loadLoop] at h
      | str s => simp [loadLoop] at h
      | arr xs => simp [loadLoop] at h

/-- Splitting `_load_processed_ids` at an append, when the first part
aborts: the rest of the file is never scanned. -/
theorem loadLoop_append_err :
    ∀ (a b : List Line) (acc : List Json), (loadLoop a acc).2.isSome →
      loadLoop (a ++ b) acc = loadLoop a acc := by
  intro a
  induction a with
  | nil => intro b acc h; simp [loadLoop] at h
  | cons hd tl ih =>
    intro b acc h
    cases hd with
    | blank => exact ih b acc h
    | malformed => exact ih b acc h
    | parsed j =>
      cases j with
      | obj kvs =>
        cases hh : jsonHashable ((objGet kvs "alert_id").getD .null) with
        | true =>
          simp only [List.cons_append, loadLoop, hh, if_true] at h ⊢
          exact ih b _ h
        | false => simp [loadLoop, hh]
      | null => rfl
      | bool b' => rfl
      | num n => rfl
      | str s => rfl
      | arr xs => rfl

/-- Accumulator congruence for `_load_processed_ids`: starting from a set
with one extra element `u` yields the same membership plus `u`. -/
theorem loadLoop_mem_congr :
    ∀ (b : List Line) (acc1 acc2 : List Json) (u : Json),
      (∀ v, v ∈ acc1 ↔ v = u ∨ v ∈ acc2) →
      ∀ v, v ∈ (loadLoop b acc1).1 ↔ v = u ∨ v ∈ (loadLoop b acc2).1 := by
  intro b
  induction b with
  | nil => intro acc1 acc2 u h v; exact h v
  | cons hd tl ih =>
    intro acc1 acc2 u h v
    cases hd with
    | blank => exact ih acc1 acc2 u h v
    | malformed => exact ih acc1 acc2 u h v
    | parsed j =>
      cases j with
      | obj kvs =>
        cases hh : jsonHashable ((objGet kvs "alert_id").getD .null) with
        | true =>
          simp only [loadLoop, hh, if_true]
          refine ih _ _ u (fun w => ?_) v
          simp only [List.mem_insert_iff]
          rw [h w]
          tauto
        | false =>
          simp only [loadLoop, hh, Bool.false_eq_true, if_false]
          exact h v
      | null => exact h v
      | bool b' => exact h v
      | num n => exact h v
      | str s => exact h v
      | arr xs => exact h v

/-- C5: `_load_processed_ids` is total over every output-file content:
invalid-JSON lines are skipped and contribute nothing (removing them
changes nothing); a well-formed JSON object line without an `alert_id`
key contributes no id (only the Python `None` placeholder) to the set;
and an internal error (here: a parsed line that is not an object) stops
the scan but is swallowed, returning the set accumulated so far instead
of raising. -/
theorem C5_loadProcessedIds_total_tolerant :
    (∀ lines : List Line,
      loadProcessedIds (lines.filter fun l => l ≠ Line.malformed) = loadProcessedIds lines)
    ∧ (∀ (pre post : List Line) (kvs : JsonObj), objGet kvs "alert_id" = none →
        ∀ v, v ≠ Json.null →
          (v ∈ loadProcessedIds (pre ++ Line.parsed (.obj kvs) :: post) ↔
            v ∈ loadProcessedIds (pre ++ post)))
    ∧ (∀ pre post : List Line, (loadLoop pre []).2.isSome →
        loadProcessedIds (pre ++ post) = loadProcessedIds pre) := by
  refine ⟨?_, ?_, ?_⟩
  · intro lines
    unfold loadProcessedIds
    rw [loadLoop_filter_malformed]
  · intro pre post kvs hk v hv
    unfold loadProcessedIds
    cases h2 : (loadLoop pre []).2 with
    | some e =>
      rw [loadLoop_append_err pre _ [] (by simp [h2]),
        loadLoop_append_err pre _ [] (by simp [h2])]
    | none =>
      rw [loadLoop_append_ok pre _ [] h2, loadLoop_append_ok pre _ [] h2]
      have step : loadLoop (Line.parsed (.obj kvs) :: post) (loadLoop pre []).1 =
          loadLoop post (((loadLoop pre []).1).insert Json.null) := by
        simp [loadLoop, hk, jsonHashable]
      rw [step]
      have := loadLoop_mem_congr post (((loadLoop pre []).1).insert Json.null)
        (loadLoop pre []).1 Json.null (fun w => by simp [List.mem_insert_iff]) v
      rw [this]
      simp [hv]
  · intro pre post h
    unfold loadProcessedIds
    rw [loadLoop_append_err pre post [] h]

/-- Witness for C5 at concrete inputs: a keyless object line adds no id,
and a non-object parsed line stops the scan without raising. -/
theorem C5_witness :
    (objGet JsonObj.nil "alert_id" = none ∧ (Json.str "a1") ≠ Json.null ∧
      (Json.str "a1" ∈ loadProcessedIds
          ([Line.parsed (.obj (.cons "alert_id" (.str "a1") .nil))] ++
            Line.parsed (.obj .nil) :: []) ↔
        Json.str "a1" ∈ loadProcessedIds
          ([Line.parsed (.obj (.cons "alert_id" (.str "a1") .nil))] ++ [])))
    ∧ ((loadLoop [Line.parsed (.num 5)] []).2.isSome ∧
        loadProcessedIds ([Line.parsed (.num 5)] ++
            [Line.parsed (.obj (.cons "alert_id" (.str "a1") .nil))]) =
          loadProcessedIds [Line.parsed (.num 5)]) :=
  ⟨⟨by decide, by decide,
    C5_loadProcessedIds_total_tolerant.2.1
      [Line.parsed (.obj (.cons "alert_id" (.str "a1") .nil))] [] .nil (by decide)
      (Json.str "a1") (by decide)⟩,
   ⟨by decide,
    C5_loadProcessedIds_total_tolerant.2.2 [Line.parsed (.num 5)]
      [Line.parsed (.obj (.cons "alert_id" (.str "a1") .nil))] (by decide)⟩⟩

/-- C10: an item whose `alert_id` is already in the processed set is
skipped by `classify_item` before anything else happens: the result is
`None` for every possible model outcome, so the model is never consulted. -/
theorem C10_classify_item_skips_processed
    (parseJson : String → Option Json) (P : List Json) (out : ModelOutcome)
    (now : String) (item : Item) (h : itemAlertId item ∈ P) :
    classify_item parseJson P out now item = none := by
  unfold classify_item
  rw [if_pos h]

/-- Witness for C10: a concrete already-processed item is skipped even
though the model would have answered. -/
theorem C10_witness :
    itemAlertId (JsonObj.cons "alert_id" (.str "a1") .nil) ∈ [Json.str "a1"] ∧
    classify_item (fun _ => none) [Json.str "a1"]
      (.responds (some (.obj (.cons "theme" (.str "OTHER") .nil)))) "t"
      (JsonObj.cons "alert_id" (.str "a1") .nil) = none :=
  ⟨by decide,
   C10_classify_item_skips_processed (fun _ => none) [Json.str "a1"]
     (.responds (some (.obj (.cons "theme" (.str "OTHER") .nil)))) "t"
     (JsonObj.cons "alert_id" (.str "a1") .nil) (by decide)⟩

/-- A successfully built result carries the caller's `alert_id`, a theme
inside the closed label set, and presupposes a parsed response. -/
theorem buildResult_ok_some {aid : Json} {now : String} {p : Option Json}
    {r : ClassificationResult} (h : buildResult aid now p = .ok (some r)) :
    r.alert_id = aid ∧ r.theme ∈ VALID_THEMES ∧ ∃ j, p = some j := by
  unfold buildResult at h
  cases p with
  | none => simp [pure, Except.pure] at h
  | some d =>
    simp only [bind, Except.bind] at h
    cases hg : pyGet d "theme" (.str "OTHER") with
    | error e => rw [hg] at h; simp at h
    | ok t =>
      rw [hg] at h
      cases hc : pyGet d "confidence" (.str "UNKNOWN") with
      | error e => rw [hc] at h; simp at h
      | ok c =>
        rw [hc] at h
        cases h1 : pyGet d "reasoning" (.str "") with
        | error e => rw [h1] at h; simp at h
        | ok x1 =>
          rw [h1] at h
          cases h2 : pyGet d "missing_context" (.str "") with
          | error e => rw [h2] at h; simp at h
          | ok x2 =>
            rw [h2] at h
            cases h3 : pyGet d "trend_insight" (.str "") with
            | error e => rw [h3] at h; simp at h
            | ok x3 =>
              rw [h3] at h
              simp only [pure, Except.pure, Except.ok.injEq, Option.some.injEq] at h
              refine ⟨by rw [← h], ?_, d, rfl⟩
              rw [← h]
              cases t with
              | str s =>
                show (if s ∈ VALID_THEMES then s else "OTHER") ∈ VALID_THEMES
                by_cases hs : s ∈ VALID_THEMES
                · rw [if_pos hs]; exact hs
                · rw [if_neg hs]; simp [VALID_THEMES]
              | null => show "OTHER" ∈ VALID_THEMES; simp [VALID_THEMES]
              | bool b => show "OTHER" ∈ VALID_THEMES; simp [VALID_THEMES]
              | num n => show "OTHER" ∈ VALID_THEMES; simp [VALID_THEMES]
              | arr xs => show "OTHER" ∈ VALID_THEMES; simp [VALID_THEMES]
              | obj kvs => show "OTHER" ∈ VALID_THEMES; simp [VALID_THEMES]

/-- A successful pass through `classify_item`'s `try` body carries the
caller's `alert_id`, a validated theme, and presupposes that the model
call returned and its response text parsed. -/
theorem classifyBody_ok_some {parseJson : String → Option Json}
    {out : ModelOutcome} {now : String} {item : Item} {aid : Json}
    {r : ClassificationResult}
    (h : classifyBody parseJson out now item aid = .ok (some r)) :
    r.alert_id = aid ∧ r.theme ∈ VALID_THEMES ∧ ∃ j, out = .responds (some j) := by
  unfold classifyBody at h
  cases hcs : commentStage item with
  | error e => rw [hcs] at h; simp at h
  | ok o =>
    rw [hcs] at h
    cases o with
    | none => simp at h
    | some hc =>
      cases hx : extractGeneration parseJson ((objGet item "traces").getD (.arr .nil)) with
      | error e => rw [hx] at h; simp at h
      | ok g =>
        rw [hx] at h
        cases out with
        | raises => simp at h
        | responds p =>
          simp only at h
          obtain ⟨haid, hth, j, hj⟩ := buildResult_ok_some h
          exact ⟨haid, hth, j, by rw [hj]⟩

/-- Inversion of `classify_item`: a produced result means the id was not
yet processed and the `try` body succeeded with that result. -/
theorem classify_item_some {parseJson : String → Option Json} {P : List Json}
    {out : ModelOutcome} {now : String} {item : Item} {r : ClassificationResult}
    (h : classify_item parseJson P out now item = some r) :
    itemAlertId item ∉ P ∧
      classifyBody parseJson out now item (itemAlertId item) = .ok (some r) := by
  unfold classify_item at h
  split at h
  · exact absurd h (by simp)
  · next hmem =>
    refine ⟨hmem, ?_⟩
    cases hb : classifyBody parseJson out now item (itemAlertId item) with
    | error e => rw [hb] at h; simp at h
    | ok r0 =>
      rw [hb] at h
      have h2 : r0 = some r := h
      exact congrArg Except.ok h2

/-- Combined facts about a produced classification result. -/
theorem classify_item_some_props {parseJson : String → Option Json} {P : List Json}
    {out : ModelOutcome} {now : String} {item : Item} {r : ClassificationResult}
    (h : classify_item parseJson P out now item = some r) :
    r.alert_id = itemAlertId item ∧ r.alert_id ∉ P ∧ r.theme ∈ VALID_THEMES ∧
      ∃ j, out = .responds (some j) := by
  obtain ⟨hmem, hb⟩ := classify_item_some h
  obtain ⟨haid, hth, hj⟩ := classifyBody_ok_some hb
  exact ⟨haid, haid ▸ hmem, hth, hj⟩

/-- A model call that raises, or whose response text does not parse,
never produces a result. -/
theorem classify_item_none_of_fails {parseJson : String → Option Json}
    {P : List Json} {out : ModelOutcome} {now : String} {item : Item}
    (hf : out = .raises ∨ out = .responds none) :
    classify_item parseJson P out now item = none := by
  cases hv : classify_item parseJson P out now item with
  | none => rfl
  | some r =>
    obtain ⟨_, _, _, j, hj⟩ := classify_item_some_props hv
    cases hf with
    | inl h => rw [h] at hj; cases hj
    | inr h => rw [h] at hj; cases hj

/-- The `alert_id` values recoverable from a list of file lines: one for
each line that parses to a JSON object (its `alert_id` value, Python
`None` when absent). -/
def appendedAlertIds : List Line → List Json
  | [] => []
  | .parsed (.obj kvs) :: rest => ((objGet kvs "alert_id").getD .null) :: appendedAlertIds rest
  | .parsed (.null) :: rest => appendedAlertIds rest
  | .parsed (.bool _) :: rest => appendedAlertIds rest
  | .parsed (.num _) :: rest => appendedAlertIds rest
  | .parsed (.str _) :: rest => appendedAlertIds rest
  | .parsed (.arr _) :: rest => appendedAlertIds rest
  | .blank :: rest => appendedAlertIds rest
  | .malformed :: rest => appendedAlertIds rest

/-- Whether every parsed line of the file is a JSON object. -/
def linesAllObj (lines : List Line) : Bool :=
  lines.all fun l =>
    match l with
    | .parsed j => j.isObj
    | _ => true

/-- Whether one line lets `_load_processed_ids` continue its scan: any
blank or malformed line (skipped), or a parsed JSON object whose
`alert_id` value is hashable.  A parsed non-object aborts via
`AttributeError`, an unhashable `alert_id` via `TypeError`. -/
def lineResumable : Line → Bool
  | .parsed (.obj kvs) => jsonHashable ((objGet kvs "alert_id").getD .null)
  | .parsed _ => false
  | _ => true

/-- Whether a whole file state is scanned to the end by
`_load_processed_ids`. -/
def linesResumable (lines : List Line) : Bool :=
  lines.all lineResumable

theorem appendedAlertIds_append (a b : List Line) :
    appendedAlertIds (a ++ b) = appendedAlertIds a ++ appendedAlertIds b := by
  induction a with
  | nil => rfl
  | cons hd tl ih =>
    cases hd with
    | blank => simpa [appendedAlertIds] using ih
    | malformed => simpa [appendedAlertIds] using ih
    | parsed j => cases j <;> simpa [appendedAlertIds] using ih

/-- A saved result line contributes exactly its result's `alert_id`. -/
theorem appendedAlertIds_resultJson (r : ClassificationResult) (rest : List Line) :
    appendedAlertIds (Line.parsed (resultJson r) :: rest) =
      r.alert_id :: appendedAlertIds rest := by
  simp [appendedAlertIds, resultJson, objGet]

/-- A line saved by `_save_result`, carrying its result's closed-set
theme. -/
def goodLine (l : Line) : Prop :=
  ∃ r : ClassificationResult, l = .parsed (resultJson r) ∧ r.theme ∈ VALID_THEMES

/-- Main invariant of the draining loop: it only appends result lines,
their ids are pairwise distinct and all new to the processed set, and the
final processed set is the initial one plus exactly the appended ids. -/
theorem runLoop_invariant (parseJson : String → Option Json)
    (oracle : Item → ModelOutcome) (saveOk : Nat → Bool) (now : String) :
    ∀ (items : List Item) (st : RunState) (cnt : Nat),
      ∃ new : List Line,
        (runLoop parseJson oracle saveOk now items st cnt).1.fileLines =
            st.fileLines ++ new ∧
          (∀ l ∈ new, goodLine l) ∧
          (appendedAlertIds new).Nodup ∧
          (∀ a ∈ appendedAlertIds new, a ∉ st.processed) ∧
          (∀ a, a ∈ (runLoop parseJson oracle saveOk now items st cnt).1.processed ↔
            a ∈ st.processed ∨ a ∈ appendedAlertIds new) ∧
          (∀ l ∈ new, ∃ (r : ClassificationResult) (it : Item), it ∈ items ∧
            l = Line.parsed (resultJson r) ∧ r.alert_id = itemAlertId it) := by
  intro items
  induction items with
  | nil =>
    intro st cnt
    exact ⟨[], by simp [runLoop, appendedAlertIds]⟩
  | cons item rest ih =>
    intro st cnt
    cases hcl : classify_item parseJson st.processed (oracle item) now item with
    | none =>
      obtain ⟨new, h1, h2, h3, h4, h5, h6⟩ := ih st cnt
      refine ⟨new, ?_, h2, h3, h4, ?_, ?_⟩
      · rw [← h1]; simp only [runLoop, hcl]
      · intro a; rw [← h5 a]; simp only [runLoop, hcl]
      · intro l hl
        obtain ⟨r, it, hit, hlr, hid⟩ := h6 l hl
        exact ⟨r, it, List.mem_cons_of_mem item hit, hlr, hid⟩
    | some r =>
      cases hsave : saveOk st.saves with
      | false =>
        refine ⟨[], ?_, by simp, by simp [appendedAlertIds], by simp [appendedAlertIds],
          ?_, by simp⟩
        · simp only [runLoop, hcl, hsave, Bool.false_eq_true, if_false, List.append_nil]
        · intro a
          simp only [runLoop, hcl, hsave, Bool.false_eq_true, if_false, appendedAlertIds]
          simp
      | true =>
        obtain ⟨haid, hnotin, hth, -⟩ := classify_item_some_props hcl
        obtain ⟨new1, h1, h2, h3, h4, h5, h6⟩ :=
          ih { fileLines := st.fileLines ++ [Line.parsed (resultJson r)]
               processed := st.processed.insert r.alert_id
               saves := st.saves + 1 } (cnt + 1)
        have hstep :
            runLoop parseJson oracle saveOk now (item :: rest) st cnt =
              runLoop parseJson oracle saveOk now rest
                { fileLines := st.fileLines ++ [Line.parsed (resultJson r)]
                  processed := st.processed.insert r.alert_id
                  saves := st.saves + 1 } (cnt + 1) := by
          simp only [runLoop, hcl, hsave, if_true]
        refine ⟨Line.parsed (resultJson r) :: new1, ?_, ?_, ?_, ?_, ?_, ?_⟩
        · rw [hstep, h1]; simp
        · intro l hl
          rcases List.mem_cons.mp hl with hl | hl
          · exact hl ▸ ⟨r, rfl, hth⟩
          · exact h2 l hl
        · rw [appendedAlertIds_resultJson]
          refine List.nodup_cons.mpr ⟨?_, h3⟩
          intro hmem
          exact absurd (List.mem_insert_self r.alert_id st.processed) (by simpa using h4 _ hmem)
        · rw [appendedAlertIds_resultJson]
          intro a ha
          rcases List.mem_cons.mp ha with h | h
          · rw [h]; exact hnotin
          · intro hin
            exact h4 a h (List.mem_insert_of_mem hin)
        · intro a
          rw [hstep, h5 a, appendedAlertIds_resultJson]
          simp only [List.mem_insert_iff, List.mem_cons]
          tauto
        · intro l hl
          rcases List.mem_cons.mp hl with hl | hl
          · exact ⟨r, item, List.mem_cons_self item rest, hl, haid⟩
          · obtain ⟨r', it, hit, hlr, hid⟩ := h6 l hl
            exact ⟨r', it, List.mem_cons_of_mem item hit, hlr, hid⟩

/-- When every line lets the scan continue, the loader never aborts and
its set contains every recoverable `alert_id` (plus the accumulator). -/
theorem loadLoop_mem_of_resumable :
    ∀ (lines : List Line) (acc : List Json), linesResumable lines = true →
      ∀ a, (a ∈ acc ∨ a ∈ appendedAlertIds lines) → a ∈ (loadLoop lines acc).1 := by
  intro lines
  induction lines with
  | nil =>
    intro acc _ a ha
    simpa [loadLoop, appendedAlertIds] using ha
  | cons hd tl ih =>
    intro acc hres a ha
    have hhd : lineResumable hd = true := by
      simp only [linesResumable, List.all_cons, Bool.and_eq_true] at hres
      exact hres.1
    have hres' : linesResumable tl = true := by
      simp only [linesResumable, List.all_cons, Bool.and_eq_true] at hres
      exact hres.2
    cases hd with
    | blank => exact ih acc hres' a (by simpa [appendedAlertIds] using ha)
    | malformed => exact ih acc hres' a (by simpa [appendedAlertIds] using ha)
    | parsed j =>
      cases j with
      | obj kvs =>
        have hh : jsonHashable ((objGet kvs "alert_id").getD .null) = true := by
          simpa [lineResumable] using hhd
        simp only [loadLoop, hh, if_true]
        refine ih _ hres' a ?_
        rcases ha with ha | ha
        · exact Or.inl (List.mem_insert_of_mem ha)
        · rcases List.mem_cons.mp (by simpa [appendedAlertIds] using ha) with h | h
          · exact Or.inl (h ▸ List.mem_insert_self _ _)
          · exact Or.inr h
      | null => simp [lineResumable] at hhd
      | bool b => simp [lineResumable] at hhd
      | num n => simp [lineResumable] at hhd
      | str s => simp [lineResumable] at hhd
      | arr xs => simp [lineResumable] at hhd

theorem linesResumable_append (a b : List Line) :
    linesResumable (a ++ b) = (linesResumable a && linesResumable b) :=
  List.all_append

/-- Lines saved by the draining loop are result objects, and when every
input record carries a hashable `alert_id`, so do the saved lines. -/
theorem linesResumable_of_appended (lines : List Line) (feedback : List Item)
    (hfb : ∀ item ∈ feedback, jsonHashable (itemAlertId item) = true)
    (h : ∀ l ∈ lines, ∃ (r : ClassificationResult) (it : Item), it ∈ feedback ∧
      l = Line.parsed (resultJson r) ∧ r.alert_id = itemAlertId it) :
    linesResumable lines = true := by
  refine List.all_eq_true.mpr fun l hl => ?_
  obtain ⟨r, it, hit, rfl, hid⟩ := h l hl
  simp [lineResumable, resultJson, objGet, hid, hfb it hit]

/-- The filter loop only ever keeps members of its input. -/
theorem itemsWithComments_subset :
    ∀ (feedback elig : List Item), itemsWithComments feedback = .ok elig →
      ∀ it ∈ elig, it ∈ feedback := by
  intro feedback
  induction feedback with
  | nil =>
    intro elig h it hit
    simp only [itemsWithComments, Except.ok.injEq] at h
    subst h
    cases hit
  | cons x rest ih =>
    intro elig h it hit
    simp only [itemsWithComments] at h
    cases he : eligibleItem x with
    | error e => rw [he] at h; simp at h
    | ok b =>
      rw [he] at h
      cases ht : itemsWithComments rest with
      | error e => rw [ht] at h; simp at h
      | ok tail =>
        rw [ht] at h
        simp only [Except.ok.injEq] at h
        subst h
        cases b with
        | true =>
          rcases List.mem_cons.mp (by simpa using hit) with h' | h'
          · exact h' ▸ List.mem_cons_self x rest
          · exact List.mem_cons_of_mem x (ih tail ht it h')
        | false => exact List.mem_cons_of_mem x (ih tail ht it (by simpa using hit))

theorem applyLimit_subset (limit : Option Int) (items : List Item) :
    ∀ it ∈ applyLimit limit items, it ∈ items := by
  intro it hit
  cases limit with
  | none => exact hit
  | some n =>
    simp only [applyLimit] at hit
    split at hit
    · exact hit
    · split at hit
      · exact List.take_subset _ _ hit
      · exact List.take_subset _ _ hit

/-- Every submitted item comes from the input record list. -/
theorem toProcess_subset (feedback : List Item) (limit : Option Int)
    (st : RunState) (items : List Item) (h : toProcess feedback limit st = .ok items) :
    ∀ it ∈ items, it ∈ feedback := by
  unfold toProcess at h
  cases hw : itemsWithComments feedback with
  | error e => rw [hw] at h; simp at h
  | ok elig =>
    rw [hw] at h
    simp only [Except.ok.injEq] at h
    subst h
    intro it hit
    exact itemsWithComments_subset feedback elig hw it
      (applyLimit_subset limit elig it (List.mem_of_mem_filter hit))

/-- `runLoop_invariant` lifted through the filter stage of `run`. -/
theorem run_invariant (parseJson : String → Option Json)
    (oracle : Item → ModelOutcome) (saveOk : Nat → Bool) (now : String)
    (feedback : List Item) (limit : Option Int) (st : RunState) :
    ∃ new : List Line,
      (run parseJson oracle saveOk now feedback limit st).1.fileLines =
          st.fileLines ++ new ∧
        (∀ l ∈ new, goodLine l) ∧
        (appendedAlertIds new).Nodup ∧
        (∀ a ∈ appendedAlertIds new, a ∉ st.processed) ∧
        (∀ a, a ∈ (run parseJson oracle saveOk now feedback limit st).1.processed ↔
          a ∈ st.processed ∨ a ∈ appendedAlertIds new) ∧
        (∀ l ∈ new, ∃ (r : ClassificationResult) (it : Item), it ∈ feedback ∧
          l = Line.parsed (resultJson r) ∧ r.alert_id = itemAlertId it) := by
  unfold run
  cases htp : toProcess feedback limit st with
  | error e => exact ⟨[], by simp [appendedAlertIds]⟩
  | ok items =>
    obtain ⟨new, h1, h2, h3, h4, h5, h6⟩ :=
      runLoop_invariant parseJson oracle saveOk now items st 0
    refine ⟨new, h1, h2, h3, h4, h5, fun l hl => ?_⟩
    obtain ⟨r, it, hit, hlr, hid⟩ := h6 l hl
    exact ⟨r, it, toProcess_subset feedback limit st items htp it hit, hlr, hid⟩

/-- Concrete fixture: a schema-conforming model response. -/
def exResp : Json := .obj (.cons "theme" (.str "AUTHORIZED_USER_ACTIVITY") .nil)

/-- Concrete fixture: a model oracle that always answers `exResp`. -/
def exOracle : Item → ModelOutcome := fun _ => .responds (some exResp)

/-- Concrete value of the `json.loads` abstraction used in closed
statements; it agrees with `json.loads` on every string at which those
statements evaluate it: the text `5` decodes to the number `5`, and the
other strings reaching it are not valid JSON. -/
def exParse : String → Option Json := fun s => if s = "5" then some (.num 5) else none

/-- Concrete fixture: a record with an eligible 11-character primary
comment. -/
def exGoodItem : Item :=
  .cons "alert_id" (.str "a1")
    (.cons "metadata" (.obj (.cons "human_comment" (.str "aaaaaaaaaaa") .nil)) .nil)

/-- Concrete fixture: a second eligible record with a distinct id. -/
def exGoodItem2 : Item :=
  .cons "alert_id" (.str "b1")
    (.cons "metadata" (.obj (.cons "human_comment" (.str "bbbbbbbbbbb") .nil)) .nil)

/-- Concrete fixture: an output-file line that is valid JSON but not an
object (the text `5`). -/
def exPoisonLine : Line := .parsed (.num 5)

/-- C1 (amended): for every output-file state whose valid-JSON lines are
all JSON objects with hashable (non-array, non-object) `alert_id`
values, and every input record set whose records carry hashable
`alert_id` values, re-running the pipeline with the same output file
never produces two ClassificationResults with the same id: the
ProcessedIdSet is rebuilt from the output file at construction, records
whose alert_id is in that set are excluded, and on each successful
append the id is added, so each alert_id is appended at most once across
the original run and any resumed run (stated over the ids of all lines
the two runs append).  Both hypotheses delimit the states the program
itself can produce: every line the pipeline appends is an object with
the record's `alert_id`, and a record with an unhashable `alert_id`
makes the real `run` raise `TypeError` at the `not in processed_ids`
membership test before anything is submitted, so it never appends. -/
theorem C1_resume_no_duplicate_ids
    (pj1 pj2 : String → Option Json) (o1 o2 : Item → ModelOutcome)
    (s1 s2 : Nat → Bool) (now1 now2 : String) (feedback : List Item)
    (limit : Option Int) (F0 : List Line) (hF0 : linesResumable F0 = true)
    (hfb : ∀ item ∈ feedback, jsonHashable (itemAlertId item) = true) :
    ∃ new1 new2 : List Line,
      (run pj1 o1 s1 now1 feedback limit ⟨F0, loadProcessedIds F0, 0⟩).1.fileLines =
          F0 ++ new1 ∧
        (run pj2 o2 s2 now2 feedback limit
            ⟨F0 ++ new1, loadProcessedIds (F0 ++ new1), 0⟩).1.fileLines =
          (F0 ++ new1) ++ new2 ∧
        (appendedAlertIds (new1 ++ new2)).Nodup := by
  obtain ⟨new1, h11, h12, h13, h14, h15, h16⟩ :=
    run_invariant pj1 o1 s1 now1 feedback limit ⟨F0, loadProcessedIds F0, 0⟩
  obtain ⟨new2, h21, h22, h23, h24, h25, -⟩ :=
    run_invariant pj2 o2 s2 now2 feedback limit
      ⟨F0 ++ new1, loadProcessedIds (F0 ++ new1), 0⟩
  refine ⟨new1, new2, h11, h21, ?_⟩
  rw [appendedAlertIds_append]
  refine List.Nodup.append h13 h23 fun a ha1 ha2 => ?_
  have hall : linesResumable (F0 ++ new1) = true := by
    rw [linesResumable_append, hF0, linesResumable_of_appended new1 feedback hfb h16]
    rfl
  have hmem : a ∈ loadProcessedIds (F0 ++ new1) := by
    refine loadLoop_mem_of_resumable (F0 ++ new1) [] hall a (Or.inr ?_)
    rw [appendedAlertIds_append]
    exact List.mem_append_right _ ha1
  exact h24 a ha2 hmem

/-- Witness for C1 on concrete inputs: an empty prior output file and one
eligible record with a string id. -/
theorem C1_witness :
    linesResumable [] = true ∧
    (∀ item ∈ [exGoodItem], jsonHashable (itemAlertId item) = true) ∧
    ∃ new1 new2 : List Line,
      (run exParse exOracle (fun _ => true) "t" [exGoodItem] none
          ⟨[], loadProcessedIds [], 0⟩).1.fileLines = [] ++ new1 ∧
        (run exParse exOracle (fun _ => true) "t" [exGoodItem] none
            ⟨[] ++ new1, loadProcessedIds ([] ++ new1), 0⟩).1.fileLines =
          ([] ++ new1) ++ new2 ∧
        (appendedAlertIds (new1 ++ new2)).Nodup :=
  ⟨by decide, by decide,
   C1_resume_no_duplicate_ids exParse exParse exOracle exOracle
     (fun _ => true) (fun _ => true) "t" "t" [exGoodItem] none [] (by decide)
     (by decide)⟩

/-- Concrete fixture: an output-file line that is a JSON object whose
`alert_id` value is a list — `processed.add` raises `TypeError` on it. -/
def exUnhashableLine : Line :=
  .parsed (.obj (.cons "alert_id" (.arr (.cons (.str "x") .nil)) .nil))

/-- Counterexample to C1 as stated: the loader's outer `except Exception`
truncates the rebuilt set in two ways — a valid-JSON non-object line
(the text `5`, raising `AttributeError` at `data.get`) and an object
line whose `alert_id` is a list (raising `TypeError` at
`processed.add`).  In both file states re-running appends a second
result with the same id `"a1"`; the second state consists solely of
JSON object lines, so object-ness of the lines alone does not restore
the claim. -/
theorem C1_counterexample :
    ((appendedAlertIds
        ((run exParse exOracle (fun _ => true) "t" [exGoodItem] none
            ⟨(run exParse exOracle (fun _ => true) "t" [exGoodItem] none
                ⟨[exPoisonLine], loadProcessedIds [exPoisonLine], 0⟩).1.fileLines,
              loadProcessedIds
                (run exParse exOracle (fun _ => true) "t" [exGoodItem] none
                  ⟨[exPoisonLine], loadProcessedIds [exPoisonLine], 0⟩).1.fileLines,
              0⟩).1.fileLines.drop 1)).Nodup = False)
    ∧ linesAllObj [exUnhashableLine] = true
    ∧ ((appendedAlertIds
        ((run exParse exOracle (fun _ => true) "t" [exGoodItem] none
            ⟨(run exParse exOracle (fun _ => true) "t" [exGoodItem] none
                ⟨[exUnhashableLine], loadProcessedIds [exUnhashableLine], 0⟩).1.fileLines,
              loadProcessedIds
                (run exParse exOracle (fun _ => true) "t" [exGoodItem] none
                  ⟨[exUnhashableLine], loadProcessedIds [exUnhashableLine], 0⟩).1.fileLines,
              0⟩).1.fileLines.drop 1)).Nodup = False) := by
  decide

/-- Whether a model call outcome is one of the per-item failure modes:
an exception during the call, or a response text that fails to parse. -/
def outcomeFails : ModelOutcome → Bool
  | .raises => true
  | .responds none => true
  | .responds (some _) => false

/-- C2: every produced ClassificationResult has a theme in the closed
six-label set; for a response that parses to a JSON object, a result is
always produced, with theme coerced to `"OTHER"` whenever the response's
theme is absent or not in the set; and every line the draining loop
appends to the output file is a result line whose theme is in the set. -/
theorem C2_closed_label_invariant :
    (∀ (parseJson : String → Option Json) (P : List Json) (out : ModelOutcome)
        (now : String) (item : Item) (r : ClassificationResult),
        classify_item parseJson P out now item = some r → r.theme ∈ VALID_THEMES)
    ∧ (∀ (aid : Json) (now : String) (kvs : JsonObj),
        (¬ ∃ s, objGet kvs "theme" = some (.str s) ∧ s ∈ VALID_THEMES) →
        ∃ r, buildResult aid now (some (.obj kvs)) = .ok (some r) ∧ r.theme = "OTHER")
    ∧ (∀ (parseJson : String → Option Json) (oracle : Item → ModelOutcome)
        (saveOk : Nat → Bool) (now : String) (items : List Item) (st : RunState)
        (cnt : Nat) (l : Line),
        l ∈ (runLoop parseJson oracle saveOk now items st cnt).1.fileLines →
        l ∈ st.fileLines ∨ goodLine l) := by
  refine ⟨?_, ?_, ?_⟩
  · intro parseJson P out now item r h
    exact (classify_item_some_props h).2.2.1
  · intro aid now kvs hno
    refine ⟨⟨aid, "OTHER", (objGet kvs "confidence").getD (.str "UNKNOWN"),
      (objGet kvs "reasoning").getD (.str ""),
      (objGet kvs "missing_context").getD (.str ""),
      (objGet kvs "trend_insight").getD (.str ""), now⟩, ?_, rfl⟩
    unfold buildResult
    simp only [pyGet, bind, Except.bind, pure, Except.pure, Except.ok.injEq,
      Option.some.injEq]
    cases ht : objGet kvs "theme" with
    | none => simp [Option.getD]
    | some t =>
      cases t with
      | str s =>
        have hs : s ∉ VALID_THEMES := fun hmem => hno ⟨s, ht, hmem⟩
        simp [Option.getD, hs]
      | null => simp [Option.getD]
      | bool b => simp [Option.getD]
      | num n => simp [Option.getD]
      | arr xs => simp [Option.getD]
      | obj o => simp [Option.getD]
  · intro parseJson oracle saveOk now items st cnt l hl
    obtain ⟨new, h1, h2, -, -, -, -⟩ := runLoop_invariant parseJson oracle saveOk now items st cnt
    rw [h1] at hl
    rcases List.mem_append.mp hl with h | h
    · exact Or.inl h
    · exact Or.inr (h2 l h)

/-- Witness for C2 at concrete inputs: a produced result's theme is in
the set; a response object whose theme is the out-of-set string
`NOT_A_REAL_THEME` still yields a result, with theme `OTHER`; a line
appended by a concrete loop run is a valid result line. -/
theorem C2_witness :
    (∃ r, classify_item exParse [] (.responds (some exResp)) "t" exGoodItem = some r ∧
      r.theme ∈ VALID_THEMES)
    ∧ (∃ r, buildResult (Json.str "a1") "t"
        (some (.obj (.cons "theme" (.str "NOT_A_REAL_THEME") .nil))) = .ok (some r) ∧
        r.theme = "OTHER")
    ∧ (Line.parsed (resultJson ⟨.str "a1", "AUTHORIZED_USER_ACTIVITY", .str "UNKNOWN",
        .str "", .str "", .str "", "t"⟩) ∈
          (runLoop exParse exOracle (fun _ => true) "t" [exGoodItem] ⟨[], [], 0⟩ 0).1.fileLines ∧
        (Line.parsed (resultJson ⟨.str "a1", "AUTHORIZED_USER_ACTIVITY", .str "UNKNOWN",
          .str "", .str "", .str "", "t"⟩) ∈ ([] : List Line) ∨
          goodLine (Line.parsed (resultJson ⟨.str "a1", "AUTHORIZED_USER_ACTIVITY",
            .str "UNKNOWN", .str "", .str "", .str "", "t"⟩)))) := by
  refine ⟨⟨⟨.str "a1", "AUTHORIZED_USER_ACTIVITY", .str "UNKNOWN", .str "", .str "", .str "", "t"⟩,
    by decide, C2_closed_label_invariant.1 exParse [] (.responds (some exResp)) "t" exGoodItem
      ⟨.str "a1", "AUTHORIZED_USER_ACTIVITY", .str "UNKNOWN", .str "", .str "", .str "", "t"⟩
      (by decide)⟩, ?_, ?_⟩
  · exact C2_closed_label_invariant.2.1 (Json.str "a1") "t"
      (.cons "theme" (.str "NOT_A_REAL_THEME") .nil)
      (by rintro ⟨s, hs, hmem⟩; simp [objGet] at hs; subst hs; revert hmem; decide)
  · exact ⟨by decide,
      C2_closed_label_invariant.2.2 exParse exOracle (fun _ => true) "t" [exGoodItem]
        ⟨[], [], 0⟩ 0 _ (by decide)⟩

theorem outcomeFails_iff (o : ModelOutcome) :
    outcomeFails o = true ↔ o = .raises ∨ o = .responds none := by
  cases o with
  | raises => simp [outcomeFails]
  | responds p => cases p <;> simp [outcomeFails]

/-- Items whose model call fails are no-ops for the draining loop:
removing them changes neither the final state nor the returned value. -/
theorem runLoop_skip_fails (parseJson : String → Option Json)
    (oracle : Item → ModelOutcome) (saveOk : Nat → Bool) (now : String) :
    ∀ (items : List Item) (st : RunState) (cnt : Nat),
      runLoop parseJson oracle saveOk now
          (items.filter fun it => ¬ outcomeFails (oracle it)) st cnt =
        runLoop parseJson oracle saveOk now items st cnt := by
  intro items
  induction items with
  | nil => intro st cnt; rfl
  | cons item rest ih =>
    intro st cnt
    by_cases hf : outcomeFails (oracle item) = true
    · have hnone : classify_item parseJson st.processed (oracle item) now item = none :=
        classify_item_none_of_fails ((outcomeFails_iff (oracle item)).mp hf)
      rw [List.filter_cons, if_neg (by simp [hf])]
      rw [show runLoop parseJson oracle saveOk now (item :: rest) st cnt =
          runLoop parseJson oracle saveOk now rest st cnt from by
        simp only [runLoop, hnone]]
      exact ih st cnt
    · rw [List.filter_cons, if_pos (by simp [hf])]
      simp only [runLoop]
      cases hcl : classify_item parseJson st.processed (oracle item) now item with
      | none => exact ih st cnt
      | some r =>
        cases hsave : saveOk st.saves with
        | false => rfl
        | true => exact ih _ (cnt + 1)

/-- With every save succeeding, the loop never aborts and returns the
initial count plus exactly the number of lines it appended. -/
theorem runLoop_count (parseJson : String → Option Json)
    (oracle : Item → ModelOutcome) (now : String) :
    ∀ (items : List Item) (st : RunState) (cnt : Nat),
      (runLoop parseJson oracle (fun _ => true) now items st cnt).2 =
        .ok (cnt +
          ((runLoop parseJson oracle (fun _ => true) now items st cnt).1.fileLines.length -
            st.fileLines.length)) := by
  intro items
  induction items with
  | nil => intro st cnt; simp [runLoop]
  | cons item rest ih =>
    intro st cnt
    cases hcl : classify_item parseJson st.processed (oracle item) now item with
    | none => simp only [runLoop, hcl]; exact ih st cnt
    | some r =>
      simp only [runLoop, hcl, if_true]
      rw [ih { fileLines := st.fileLines ++ [Line.parsed (resultJson r)]
               processed := st.processed.insert r.alert_id
               saves := st.saves + 1 } (cnt + 1)]
      obtain ⟨new, h1, -, -, -, -, -⟩ :=
        runLoop_invariant parseJson oracle (fun _ => true) now rest
          { fileLines := st.fileLines ++ [Line.parsed (resultJson r)]
            processed := st.processed.insert r.alert_id
            saves := st.saves + 1 } (cnt + 1)
      rw [h1]
      simp only [List.length_append, List.length_cons, List.length_nil]
      congr 1
      omega

/-- C6: per-item failure isolation.  A model call that raises, or whose
response is malformed, makes `classify_item` return `None` for that item;
such items are no-ops for the draining loop, so every other item of the
batch is processed exactly as if the failing items were absent; and with
saves succeeding the loop never aborts, returning a success count equal
to the number of results it persisted (lines appended). -/
theorem C6_partial_failure_isolation :
    (∀ (parseJson : String → Option Json) (P : List Json) (out : ModelOutcome)
        (now : String) (item : Item),
        out = .raises ∨ out = .responds none →
        classify_item parseJson P out now item = none)
    ∧ (∀ (parseJson : String → Option Json) (oracle : Item → ModelOutcome)
        (saveOk : Nat → Bool) (now : String) (items : List Item) (st : RunState)
        (cnt : Nat),
        runLoop parseJson oracle saveOk now
            (items.filter fun it => ¬ outcomeFails (oracle it)) st cnt =
          runLoop parseJson oracle saveOk now items st cnt)
    ∧ (∀ (parseJson : String → Option Json) (oracle : Item → ModelOutcome)
        (now : String) (items : List Item) (st : RunState) (cnt : Nat),
        (runLoop parseJson oracle (fun _ => true) now items st cnt).2 =
          .ok (cnt +
            ((runLoop parseJson oracle (fun _ => true) now items st cnt).1.fileLines.length -
              st.fileLines.length))) :=
  ⟨fun _parseJson _P _out _now _item h => classify_item_none_of_fails h,
   fun parseJson oracle saveOk now items st cnt =>
     runLoop_skip_fails parseJson oracle saveOk now items st cnt,
   fun parseJson oracle now items st cnt => runLoop_count parseJson oracle now items st cnt⟩

/-- Witness for C6: a raising call on a concrete item yields `None`. -/
theorem C6_witness :
    classify_item exParse [] .raises "t" exGoodItem = none :=
  C6_partial_failure_isolation.1 exParse [] .raises "t" exGoodItem (Or.inl rfl)

/-- C4 (amended): with a positive item limit N, the cap truncates the
eligible list to its first N records before the already-processed filter,
so the submitted list is exactly the not-yet-processed part of the first
N eligible records (and its length may be smaller than N even when more
unprocessed eligible records exist later in the input). -/
theorem C4_limit_truncates_eligible (feedback : List Item) (st : RunState)
    (n : Int) (hn : 0 < n) (elig : List Item)
    (h : itemsWithComments feedback = .ok elig) :
    toProcess feedback (some n) st =
      .ok ((elig.take n.toNat).filter fun it => itemAlertId it ∉ st.processed) := by
  unfold toProcess
  rw [h]
  show Except.ok ((applyLimit (some n) elig).filter fun it => itemAlertId it ∉ st.processed) = _
  rw [show applyLimit (some n) elig = elig.take n.toNat from by
    simp only [applyLimit]
    rw [if_neg (by omega), if_pos hn]]

/-- Witness for C4: limit 2 on three eligible records keeps the first
two; the second is already processed, so only one record is submitted
even though the third is eligible and unprocessed. -/
theorem C4_witness :
    itemsWithComments [exGoodItem, exGoodItem2, exGoodItem] =
        .ok [exGoodItem, exGoodItem2, exGoodItem] ∧
      (0 : Int) < 2 ∧
      toProcess [exGoodItem, exGoodItem2, exGoodItem] (some 2)
          ⟨[], [Json.str "b1"], 0⟩ =
        .ok ((([exGoodItem, exGoodItem2, exGoodItem].take (Int.toNat 2)).filter
          fun it => itemAlertId it ∉ [Json.str "b1"])) ∧
      toProcess [exGoodItem, exGoodItem2, exGoodItem] (some 2)
          ⟨[], [Json.str "b1"], 0⟩ = .ok [exGoodItem] :=
  ⟨by decide, by decide,
   C4_limit_truncates_eligible [exGoodItem, exGoodItem2, exGoodItem]
     ⟨[], [Json.str "b1"], 0⟩ 2 (by decide) [exGoodItem, exGoodItem2, exGoodItem]
     (by decide),
   by decide⟩

/-- Counterexample to C4 as stated: with limit 0 the code truncates
nothing (`if limit:` is false for 0) and submits the eligible record,
while the claim predicts zero submissions. -/
theorem C4_counterexample :
    toProcess [exGoodItem] (some 0) ⟨[], [], 0⟩ = .ok [exGoodItem] ∧
      (([exGoodItem].take (Int.toNat 0)).filter
        fun it => itemAlertId it ∉ ([] : List Json)) = [] := by
  decide

/-- Concrete fixture: a record whose only long comment sits in a score's
`value` field (its `comment` field is absent). -/
def exValueOnlyItem : Item :=
  .cons "alert_id" (.str "a2")
    (.cons "feedback_scores"
      (.arr (.cons (.obj (.cons "value" (.str "aaaaaaaaaaa") .nil)) .nil)) .nil)

/-- Following the claim's words (C3): the first feedback-score entry
whose `comment` or `value` field is a string longer than 10 trimmed
characters (the `comment` field preferred). -/
def claimFirstQualifying : List Json → Option String
  | [] => none
  | .obj kvs :: rest =>
    (match (objGet kvs "comment").getD .null with
      | .str c => if (pyStrip c).length > 10 then some c else none
      | _ => none).orElse
    (fun _ =>
      match (objGet kvs "value").getD .null with
      | .str c => if (pyStrip c).length > 10 then some c else none
      | _ => none) |>.orElse (fun _ => claimFirstQualifying rest)
  | _ :: rest => claimFirstQualifying rest

/-- Following the claim's words (C3): a record is eligible iff its
effective comment — the primary metadata comment or, when the primary
field is empty, the first qualifying `comment`-or-`value` score entry —
has trimmed length > 10. -/
def claimEligible (item : Item) : Bool :=
  let metadata := (objGet item "metadata").getD (.obj .nil)
  let primary :=
    match metadata with
    | .obj kvs => (objGet kvs "human_comment").getD .null
    | _ => .null
  let effective :=
    if pyTruthy primary then primary
    else
      match (match (objGet item "feedback_scores").getD (.arr .nil) with
        | .arr xs => claimFirstQualifying xs.toList
        | _ => none) with
      | some c => Json.str c
      | none => primary
  match effective with
  | .str s => decide ((pyStrip s).length > 10)
  | _ => false

/-- Following the amended claim's words (C3): the first feedback-score
entry whose `comment` field is a string longer than 10 trimmed
characters (the `value` field is never consulted by `run`'s filter). -/
def specFirstQualifying : List Json → Option String
  | [] => none
  | .obj kvs :: rest =>
    (match objGet kvs "comment" with
      | some (.str c) => if (pyStrip c).length > 10 then some c else none
      | _ => none).orElse (fun _ => specFirstQualifying rest)
  | _ :: rest => specFirstQualifying rest

/-- Following the amended claim's words (C3): a record passes the Item
Selector's eligibility filter iff its effective comment — the primary
metadata comment or, when the primary field is empty/falsy, the first
feedback-score whose `comment` field is a string of trimmed length
> 10 — is a string of trimmed length > 10. -/
def amendedEligible (item : Item) : Bool :=
  let metadata := (objGet item "metadata").getD (.obj .nil)
  let primary :=
    match metadata with
    | .obj kvs => (objGet kvs "human_comment").getD .null
    | _ => .null
  let effective :=
    if pyTruthy primary then primary
    else
      match (match (objGet item "feedback_scores").getD (.arr .nil) with
        | .arr xs => specFirstQualifying xs.toList
        | _ => none) with
      | some c => Json.str c
      | none => primary
  match effective with
  | .str s => decide ((pyStrip s).length > 10)
  | _ => false

/-- Record shape assumed by the input interface: `metadata` (when
present) is an object and `feedback_scores` (defaulted to `[]`) is an
array of objects. -/
def itemWF (item : Item) : Bool :=
  ((objGet item "metadata").getD (.obj .nil)).isObj &&
    (match (objGet item "feedback_scores").getD (.arr .nil) with
      | .arr xs => xs.toList.all Json.isObj
      | _ => false)

/-- `run`'s comment fallback computes exactly the first qualifying
`comment`-field score (keeping the original comment when none
qualifies). -/
theorem runFallbackGo_eq_spec :
    ∀ (scores : List Json) (orig : Json), scores.all Json.isObj = true →
      runFallbackGo scores orig =
        .ok (match specFirstQualifying scores with
          | some c => Json.str c
          | none => orig) := by
  intro scores
  induction scores with
  | nil => intro orig _; rfl
  | cons score rest ih =>
    intro orig hall
    have hall' : rest.all Json.isObj = true := by
      simp only [List.all_cons, Bool.and_eq_true] at hall
      exact hall.2
    cases score with
    | obj kvs =>
      simp only [runFallbackGo, specFirstQualifying, pyGet]
      cases hc : objGet kvs "comment" with
      | none => simpa [Option.getD, Option.orElse] using ih orig hall'
      | some c =>
        cases c with
        | str s =>
          by_cases hlen : (pyStrip s).length > 10
          · simp [Option.getD, Option.orElse, hlen]
          · simpa [Option.getD, Option.orElse, hlen] using ih orig hall'
        | null => simpa [Option.getD, Option.orElse] using ih orig hall'
        | bool b => simpa [Option.getD, Option.orElse] using ih orig hall'
        | num n => simpa [Option.getD, Option.orElse] using ih orig hall'
        | arr xs => simpa [Option.getD, Option.orElse] using ih orig hall'
        | obj o => simpa [Option.getD, Option.orElse] using ih orig hall'
    | null => simp [List.all_cons, Json.isObj] at hall
    | bool b => simp [List.all_cons, Json.isObj] at hall
    | num n => simp [List.all_cons, Json.isObj] at hall
    | str s => simp [List.all_cons, Json.isObj] at hall
    | arr xs => simp [List.all_cons, Json.isObj] at hall

/-- On well-formed records, `run`'s eligibility check computes the
amended-claim predicate. -/
theorem eligibleItem_eq_amended (item : Item) (h : itemWF item = true) :
    eligibleItem item = .ok (amendedEligible item) := by
  simp only [itemWF, Bool.and_eq_true] at h
  obtain ⟨hm, hs⟩ := h
  unfold eligibleItem amendedEligible
  cases hmeta : (objGet item "metadata").getD (.obj .nil) with
  | obj kvs =>
    simp only [pyGet]
    by_cases ht : pyTruthy ((objGet kvs "human_comment").getD .null)
    · rw [if_neg (by simp [ht]), if_pos ht]
      cases (objGet kvs "human_comment").getD .null <;> rfl
    · rw [if_pos (by simp [ht]), if_neg ht]
      cases hscores : (objGet item "feedback_scores").getD (.arr .nil) with
      | arr xs =>
        rw [hscores] at hs
        simp only [pyIter]
        rw [runFallbackGo_eq_spec xs.toList _ hs]
        cases hq : specFirstQualifying xs.toList with
        | some c => simp
        | none => cases (objGet kvs "human_comment").getD .null <;> rfl
      | null => rw [hscores] at hs; simp at hs
      | bool b => rw [hscores] at hs; simp at hs
      | num n => rw [hscores] at hs; simp at hs
      | str s => rw [hscores] at hs; simp at hs
      | obj o => rw [hscores] at hs; simp at hs
  | null => rw [hmeta] at hm; simp [Json.isObj] at hm
  | bool b => rw [hmeta] at hm; simp [Json.isObj] at hm
  | num n => rw [hmeta] at hm; simp [Json.isObj] at hm
  | str s => rw [hmeta] at hm; simp [Json.isObj] at hm
  | arr xs => rw [hmeta] at hm; simp [Json.isObj] at hm

/-- On well-formed records, the filter loop of `run` keeps exactly the
amended-claim-eligible records, in order. -/
theorem itemsWithComments_eq_amended :
    ∀ (feedback : List Item), (∀ item ∈ feedback, itemWF item = true) →
      itemsWithComments feedback = .ok (feedback.filter amendedEligible) := by
  intro feedback
  induction feedback with
  | nil => intro _; rfl
  | cons item rest ih =>
    intro h
    have hitem := eligibleItem_eq_amended item (h item (List.mem_cons_self item rest))
    have hrest := ih fun it hit => h it (List.mem_cons_of_mem item hit)
    simp only [itemsWithComments, hitem, hrest, List.filter_cons]

/-- C3 (amended): on well-formed records, the Item Selector's eligibility
filter passes a record iff its effective comment — the primary metadata
comment or, when the primary field is empty, the first feedback-score
whose `comment` field is a string of trimmed length > 10 (the `value`
field is never consulted) — has trimmed length > 10; among the eligible
records, exactly those not already in the ProcessedIdSet are submitted.
A record with a primary comment of trimmed length 11 is submitted; a
record whose only long comment sits in a score's `value` field is not. -/
theorem C3_eligibility_filter (feedback : List Item) (st : RunState)
    (h : ∀ item ∈ feedback, itemWF item = true) :
    itemsWithComments feedback = .ok (feedback.filter amendedEligible) ∧
      toProcess feedback none st =
        .ok ((feedback.filter amendedEligible).filter
          fun it => itemAlertId it ∉ st.processed) := by
  have h1 := itemsWithComments_eq_amended feedback h
  refine ⟨h1, ?_⟩
  unfold toProcess
  rw [h1]
  rfl

/-- Witness for C3: a primary-comment record (trimmed length 11) passes
and, unprocessed, is submitted; the value-only record is filtered out. -/
theorem C3_witness :
    (∀ item ∈ [exGoodItem, exValueOnlyItem], itemWF item = true) ∧
      itemsWithComments [exGoodItem, exValueOnlyItem] =
        .ok ([exGoodItem, exValueOnlyItem].filter amendedEligible) ∧
      toProcess [exGoodItem, exValueOnlyItem] none ⟨[], [], 0⟩ =
        .ok (([exGoodItem, exValueOnlyItem].filter amendedEligible).filter
          fun it => itemAlertId it ∉ ([] : List Json)) ∧
      [exGoodItem, exValueOnlyItem].filter amendedEligible = [exGoodItem] :=
  ⟨by decide,
   (C3_eligibility_filter [exGoodItem, exValueOnlyItem] ⟨[], [], 0⟩ (by decide)).1,
   (C3_eligibility_filter [exGoodItem, exValueOnlyItem] ⟨[], [], 0⟩ (by decide)).2,
   by decide⟩

/-- Counterexample to C3 as stated: the value-only record is eligible per
the claim's comment-or-value effective comment, and `classify_item`
itself would accept it, but `run`'s filter (which reads only the
`comment` field of scores) never submits it. -/
theorem C3_counterexample :
    claimEligible exValueOnlyItem = true ∧
      itemsWithComments [exValueOnlyItem] = .ok [] ∧
      (classify_item exParse [] (.responds (some exResp)) "t" exValueOnlyItem).isSome
        = true := by
  decide

/-- Concrete fixture: an eligible record whose generation observation's
content is the text `5` — valid JSON, but not an object. -/
def exTraceNumItem : Item :=
  .cons "alert_id" (.str "a8")
    (.cons "metadata" (.obj (.cons "human_comment" (.str "aaaaaaaaaaa") .nil))
      (.cons "traces"
        (.arr (.cons
          (.obj (.cons "observations"
            (.arr (.cons
              (.obj (.cons "type" (.str "GENERATION")
                (.cons "output" (.obj (.cons "content" (.str "5") .nil)) .nil)))
              .nil))
            .nil))
          .nil))
        .nil))

/-- C7 (amended): a failing Result Store append is logged and re-raised,
never silently swallowed — but it is fatal to the whole draining loop,
not just to that item: no line is appended for the item and the loop
returns immediately with the error, so the remaining items of the batch
are not persisted by this run (a resumed run recovers them). -/
theorem C7_save_failure_aborts_run (parseJson : String → Option Json)
    (oracle : Item → ModelOutcome) (saveOk : Nat → Bool) (now : String)
    (items : List Item) (st : RunState) (cnt : Nat) (item : Item)
    (r : ClassificationResult)
    (hc : classify_item parseJson st.processed (oracle item) now item = some r)
    (hs : saveOk st.saves = false) :
    runLoop parseJson oracle saveOk now (item :: items) st cnt =
      ({ st with saves := st.saves + 1 }, .error .saveError) := by
  simp only [runLoop, hc, hs, Bool.false_eq_true, if_false]

/-- Witness for C7 at concrete inputs: the first save attempt fails and
the loop stops with the error, persisting nothing. -/
theorem C7_witness :
    classify_item exParse ([] : List Json) (exOracle exGoodItem) "t" exGoodItem =
        some ⟨.str "a1", "AUTHORIZED_USER_ACTIVITY", .str "UNKNOWN", .str "",
          .str "", .str "", "t"⟩ ∧
      (fun _ : Nat => false) 0 = false ∧
      runLoop exParse exOracle (fun _ => false) "t" [exGoodItem, exGoodItem2]
          ⟨[], [], 0⟩ 0 = (⟨[], [], 1⟩, .error .saveError) :=
  ⟨by decide, rfl,
   C7_save_failure_aborts_run exParse exOracle (fun _ => false) "t" [exGoodItem2]
     ⟨[], [], 0⟩ 0 exGoodItem
     ⟨.str "a1", "AUTHORIZED_USER_ACTIVITY", .str "UNKNOWN", .str "", .str "", .str "", "t"⟩
     (by decide) rfl⟩

/-- Counterexample to C7 as stated: with the save failing, `run` aborts
with the error after the first completed item; the second item — whose
classification would succeed — is never drained or persisted, so the
failure is not fatal "only for that item's processing". -/
theorem C7_counterexample :
    run exParse exOracle (fun _ => false) "t" [exGoodItem, exGoodItem2] none
        ⟨[], [], 0⟩ = (⟨[], [], 1⟩, .error .saveError) ∧
      (classify_item exParse [] (exOracle exGoodItem2) "t" exGoodItem2).isSome = true := by
  decide

/-- C8 (amended): when the fence-stripped generation payload is not
valid JSON, the `except json.JSONDecodeError` leaves the four `"N/A"`
defaults in place and extraction succeeds, so the parse failure never
skips the item; but when the payload parses to a value that is not a
JSON object (after the `properties` unwrap), the field pulls raise
`AttributeError`, which escapes the narrow handler, and the item's
classification fails (it is skipped). -/
theorem C8_generation_extraction :
    (∀ (parseJson : String → Option Json) (c : String),
        parseJson (stripFences c) = none →
        genTry parseJson (.str c) = .ok defaultsGen)
    ∧ (∀ (parseJson : String → Option Json) (P : List Json) (out : ModelOutcome)
        (now : String) (item : Item) (e : PyErr),
        extractGeneration parseJson ((objGet item "traces").getD (.arr .nil)) =
          .error e →
        classify_item parseJson P out now item = none)
    ∧ (∀ (parseJson : String → Option Json) (c : String) (j : Json),
        parseJson (stripFences c) = some j →
        (unwrapProperties j).isObj = false →
        genTryInner parseJson (.str c) = .error .attributeError) := by
  refine ⟨?_, ?_, ?_⟩
  · intro parseJson c h
    simp only [genTry, genTryInner, h]
  · intro parseJson P out now item e hex
    unfold classify_item
    split
    · rfl
    · rw [show classifyBody parseJson out now item (itemAlertId item) =
          match commentStage item with
          | .error e' => .error e'
          | .ok none => .ok none
          | .ok (some _hc) =>
            match extractGeneration parseJson ((objGet item "traces").getD (.arr .nil)) with
            | .error e' => .error e'
            | .ok _gen =>
              match out with
              | .raises => .error .apiError
              | .responds p => buildResult (itemAlertId item) now p
          from rfl]
      cases commentStage item with
      | error e' => rfl
      | ok o =>
        cases o with
        | none => rfl
        | some hc => rw [hex]
  · intro parseJson c j hp hobj
    simp only [genTryInner, hp]
    unfold pullGenFields
    cases hu : unwrapProperties j with
    | obj kvs => rw [hu] at hobj; simp [Json.isObj] at hobj
    | null => rfl
    | bool b => rfl
    | num n => rfl
    | str s => rfl
    | arr xs => rfl

/-- Witness for C8 at concrete inputs: an unparsable payload yields the
defaults; the number-payload record is skipped via the extraction error. -/
theorem C8_witness :
    genTry exParse (.str "not json") = .ok defaultsGen ∧
      extractGeneration exParse ((objGet exTraceNumItem "traces").getD (.arr .nil)) =
        .error .attributeError ∧
      classify_item exParse [] (.responds (some exResp)) "t" exTraceNumItem = none ∧
      genTryInner exParse (.str "5") = .error .attributeError :=
  ⟨C8_generation_extraction.1 exParse "not json" (by decide),
   by decide,
   C8_generation_extraction.2.1 exParse [] (.responds (some exResp)) "t" exTraceNumItem
     .attributeError (by decide),
   C8_generation_extraction.2.2 exParse "5" (.num 5) (by decide) (by decide)⟩

/-- Counterexample to C8 as stated: the record whose generation payload
is the valid-JSON text `5` is skipped entirely (classification returns
`None`), while the same record without trace data produces a result —
so an extraction failure can cause the item's classification to fail,
with no `"N/A"` fallback. -/
theorem C8_counterexample :
    classify_item exParse [] (.responds (some exResp)) "t" exTraceNumItem = none ∧
      (classify_item exParse [] (.responds (some exResp)) "t"
        (.cons "alert_id" (.str "a8")
          (.cons "metadata" (.obj (.cons "human_comment" (.str "aaaaaaaaaaa") .nil))
            .nil))).isSome = true := by
  decide

/-- C9 (amended): the Aggregator never raises on a list of result
records: a model-call exception, an unparsable response, or a failing
trend-file write each yield the fallback object — an empty trends list
with the exact summary string `"Error generating trends."` — and nothing
durably written; but on success the parsed response value is returned
and written as-is, with no validation that it is an object carrying a
trends array and summary string. -/
theorem C9_trends_fallback (oracle : List Json → ModelOutcome) (writeOk : Bool)
    (results : List Item) :
    (oracle (compactData results) = .raises ∨
        oracle (compactData results) = .responds none ∨ writeOk = false →
      generate_global_trends oracle writeOk results = (fallbackTrends, none))
    ∧ (∀ j, oracle (compactData results) = .responds (some j) → writeOk = true →
        generate_global_trends oracle writeOk results = (j, some j)) := by
  constructor
  · intro h
    unfold generate_global_trends
    cases ho : oracle (compactData results) with
    | raises => rfl
    | responds p =>
      cases p with
      | none => rfl
      | some j =>
        rcases h with h | h | h
        · rw [ho] at h; cases h
        · rw [ho] at h; cases h
        · rw [h]; rfl
  · intro j hj hw
    unfold generate_global_trends
    rw [hj, hw]
    rfl

/-- Witness for C9 at concrete inputs: a raising trend call yields the
fallback pair, and a successful object response is passed through and
written. -/
theorem C9_witness :
    generate_global_trends (fun _ => .raises) true [] = (fallbackTrends, none) ∧
      generate_global_trends (fun _ => .responds (some fallbackTrends)) true [] =
        (fallbackTrends, some fallbackTrends) ∧
      fallbackTrends =
        .obj (.cons "trends" (.arr .nil)
          (.cons "summary" (.str "Error generating trends.") .nil)) :=
  ⟨(C9_trends_fallback (fun _ => .raises) true []).1 (Or.inl rfl),
   (C9_trends_fallback (fun _ => .responds (some fallbackTrends)) true []).2
     fallbackTrends rfl rfl,
   rfl⟩

/-- Counterexample to C9 as stated: a model response parsing to the
number `5` is treated as success — returned and written unvalidated —
so the Aggregator does not always return "the parsed trend object with a
trends array and summary string" on success. -/
theorem C9_counterexample :
    generate_global_trends (fun _ => .responds (some (.num 5))) true [] =
        (.num 5, some (.num 5)) ∧
      (Json.num 5).isObj = false := by
  decide
